import Mathlib

/-!
Verification of the caddy2-gitspace reconciliation core.

This file gives a shallow embedding, in Lean 4, of the route-identifier
scheme (`router/route_id.go`), the Caddy admin client
(`router/admin_client.go`), the route tracker (`router/tracker.go` and its
`RouteInfo` revision), the event handler (`handler.go` and its later
revision), and the periodic reconciler (`module.go`), together with proofs
and refutations of the specified properties.

Go maps are modelled as association lists (`List (String × V)`) with
lookup/insert-overwrite/delete helpers.  HTTP interactions are modelled by
an explicit `HttpResult` (transport error or status code plus body), and
the Caddy engine's descriptor store by an association list keyed by the
route `@id`.  Mutating operations are reported as explicit call traces so
that "issues exactly one create" style properties are statable.
-/

set_option autoImplicit false

namespace Caddy2Gitspace

/-! ## Association-list model of Go maps -/

/-- Lookup in an association list: first binding wins (a Go map has at most
one binding per key, so on well-formed maps this is exact). -/
def lookupA {V : Type} : List (String × V) → String → Option V
  | [], _ => none
  | kv :: rest, k => if kv.1 = k then some kv.2 else lookupA rest k

/-- Insert-or-overwrite, modelling `m[k] = v` on a Go map.  The position of
an existing binding is kept. -/
def upsertA {V : Type} : List (String × V) → String → V → List (String × V)
  | [], k, v => [(k, v)]
  | kv :: rest, k, v => if kv.1 = k then (k, v) :: rest else kv :: upsertA rest k v

/-- Delete, modelling `delete(m, k)` on a Go map. -/
def eraseA {V : Type} : List (String × V) → String → List (String × V)
  | [], _ => []
  | kv :: rest, k => if kv.1 = k then eraseA rest k else kv :: eraseA rest k

/-- The keys of an association list. -/
def keysA {V : Type} (m : List (String × V)) : List String :=
  m.map (·.1)

@[simp] theorem lookupA_nil {V : Type} (k : String) : lookupA ([] : List (String × V)) k = none := rfl

theorem lookupA_cons {V : Type} (kv : String × V) (rest : List (String × V)) (k : String) :
    lookupA (kv :: rest) k = if kv.1 = k then some kv.2 else lookupA rest k := rfl

theorem lookupA_upsert_self {V : Type} (m : List (String × V)) (k : String) (v : V) :
    lookupA (upsertA m k v) k = some v := by
  induction m with
  | nil => simp [upsertA, lookupA]
  | cons kv rest ih =>
    by_cases h : kv.1 = k
    · simp [upsertA, h, lookupA]
    · simp [upsertA, h, lookupA_cons, ih]

theorem lookupA_upsert_ne {V : Type} (m : List (String × V)) (k k' : String) (v : V)
    (h : k ≠ k') : lookupA (upsertA m k v) k' = lookupA m k' := by
  induction m with
  | nil => simp [upsertA, lookupA, h]
  | cons kv rest ih =>
    by_cases hk : kv.1 = k
    · subst hk
      simp [upsertA, lookupA_cons, h]
    · simp only [upsertA, if_neg hk, lookupA_cons, ih]

theorem lookupA_erase_self {V : Type} (m : List (String × V)) (k : String) :
    lookupA (eraseA m k) k = none := by
  induction m with
  | nil => rfl
  | cons kv rest ih =>
    by_cases h : kv.1 = k
    · simpa [eraseA, h] using ih
    · simpa [eraseA, h, lookupA_cons] using ih

theorem lookupA_erase_ne {V : Type} (m : List (String × V)) (k k' : String)
    (h : k ≠ k') : lookupA (eraseA m k) k' = lookupA m k' := by
  induction m with
  | nil => rfl
  | cons kv rest ih =>
    by_cases hk : kv.1 = k
    · have hk' : kv.1 ≠ k' := by
        rw [hk]; exact h
      simp [eraseA, hk, lookupA_cons, hk', ih, h]
    · simp [eraseA, hk, lookupA_cons, ih]

/-! ## `router/route_id.go` -/

/-- `strings.HasPrefix`, via the character lists underlying the strings so
that the kernel can evaluate it. -/
def goHasPfx (s pre : String) : Bool :=
  pre.data.isPrefixOf s.data

/-- `strings.TrimPrefix s pre` in the case where `pre` is known to start
`s`: drop `pre`'s characters. -/
def goTrimPfx (s pre : String) : String :=
  ⟨s.data.drop pre.data.length⟩

/-- `RouteIDPrefixNew`: the route-id marker for routes managed by the
plugin; note that the constant itself already ends in a colon. -/
def routeIDPfxNew : String := "gitspace:"

/-- `BuildRouteID`: `fmt.Sprintf("%s:%s", RouteIDPrefixNew, gitspaceIdentifier)`.
The format string inserts a second colon after the constant. -/
def buildRouteID (gitspaceIdentifier : String) : String :=
  routeIDPfxNew ++ ":" ++ gitspaceIdentifier

/-- `ParseRouteID`: strips the `gitspace:` marker (Go `strings.TrimPrefix`)
and rejects an empty remainder or a route id without the marker. -/
def parseRouteID (routeID : String) : Except String String :=
  if goHasPfx routeID routeIDPfxNew then
    let gitspaceIdentifier := goTrimPfx routeID routeIDPfxNew
    if gitspaceIdentifier = "" then
      Except.error ("invalid route id format: " ++ routeID)
    else
      Except.ok gitspaceIdentifier
  else
    Except.error ("invalid route id format: " ++ routeID)

/-- `IsManagedRouteID`: a route id is managed iff it carries the
`gitspace:` marker. -/
def isManagedRouteID (routeID : String) : Bool :=
  goHasPfx routeID routeIDPfxNew

/-- C1: evaluation of the route-id round trip at the identifier "abc".
`BuildRouteID` produces `gitspace::abc` (the constant already ends in a
colon and the format string adds another), so `ParseRouteID` returns
`:abc`, not `abc`; the round trip fails while `IsManagedRouteID` holds. -/
theorem c1_route_id_roundtrip_fails :
    buildRouteID "abc" = "gitspace::abc" ∧
    parseRouteID (buildRouteID "abc") = Except.ok ":abc" ∧
    (":abc" : String) ≠ "abc" ∧
    isManagedRouteID (buildRouteID "abc") = true := by
  refine ⟨rfl, rfl, by decide, rfl⟩

/-! ## HTTP model for `router/admin_client.go`

Each request either fails at the transport level (`httpClient.Do` returns
an error) or yields a status code and a response body. -/

inductive HttpResult where
  | transerr (msg : String)
  | status (code : Nat) (body : String)
deriving Repr, DecidableEq

/-- `DeleteRoute`: empty id is rejected up front; a transport failure is an
error; 2xx and 404 ("route absent") are success; anything else is an
engine error carrying the status and body. -/
def deleteRouteResult (routeID : String) (resp : HttpResult) : Except String Unit :=
  if routeID = "" then
    Except.error "routeID cannot be empty"
  else
    match resp with
    | HttpResult.transerr m => Except.error ("failed to call Caddy Admin API: " ++ m)
    | HttpResult.status code body =>
      if (200 ≤ code ∧ code < 300) ∨ code = 404 then
        Except.ok ()
      else
        Except.error ("Caddy Admin API error: " ++ toString code ++ " - " ++ body)

/-- `HealthCheck`: transport failure is an error; any response whose status
is 404 or lies in [200, 500) counts as healthy; other statuses are
errors. The probe endpoint only selects the URL and never influences the
classification of the response. -/
def healthCheckResult (endpoint : String) (resp : HttpResult) : Except String Unit :=
  match endpoint, resp with
  | _, HttpResult.transerr m => Except.error ("Admin API unreachable: " ++ m)
  | _, HttpResult.status code body =>
    if code = 404 ∨ (200 ≤ code ∧ code < 500) then
      Except.ok ()
    else
      Except.error ("Admin API returned error: " ++ toString code ++ " - " ++ body)

/-- C6: `DeleteRoute` is idempotent with respect to absence — for a
non-empty route id it succeeds exactly on a 2xx status or on 404, and
fails on every other status and on transport failure. -/
theorem c6_deleteRoute_absence_is_success (routeID : String) (resp : HttpResult)
    (h : routeID ≠ "") :
    (deleteRouteResult routeID resp).isOk = true ↔
      (∃ code body, resp = HttpResult.status code body ∧
        ((200 ≤ code ∧ code < 300) ∨ code = 404)) := by
  unfold deleteRouteResult
  rw [if_neg h]
  cases resp with
  | transerr m =>
    simp [Except.isOk, Except.toBool]
  | status code body =>
    by_cases hc : (200 ≤ code ∧ code < 300) ∨ code = 404
    · simp [hc, Except.isOk, Except.toBool]
    · simp [hc, Except.isOk, Except.toBool]

/-- Witness for C6: deleting the route `gitspace::abc` when the engine
answers 404 succeeds. -/
theorem c6_deleteRoute_absence_is_success_witness :
    (deleteRouteResult "gitspace::abc" (HttpResult.status 404 "")).isOk = true :=
  (c6_deleteRoute_absence_is_success "gitspace::abc" (HttpResult.status 404 "")
    (by decide)).mpr ⟨404, "", rfl, Or.inr rfl⟩

/-- C10: `HealthCheck` accepts client errors as healthy — it succeeds
exactly on statuses in [200, 500) (404 in particular) and fails on
transport errors and on statuses below 200 or at 500 and above. -/
theorem c10_healthCheck_accepts_4xx (endpoint : String) (resp : HttpResult) :
    (healthCheckResult endpoint resp).isOk = true ↔
      (∃ code body, resp = HttpResult.status code body ∧ 200 ≤ code ∧ code < 500) := by
  cases resp with
  | transerr m =>
    simp [healthCheckResult, Except.isOk, Except.toBool]
  | status code body =>
    by_cases hc : code = 404 ∨ (200 ≤ code ∧ code < 500)
    · have hrange : 200 ≤ code ∧ code < 500 := by
        rcases hc with h404 | hr
        · subst h404; exact ⟨by norm_num, by norm_num⟩
        · exact hr
      simp only [healthCheckResult, if_pos hc]
      simp [Except.isOk, Except.toBool, hrange]
    · have hrange : ¬(200 ≤ code ∧ code < 500) := by
        intro hr; exact hc (Or.inr hr)
      simp only [healthCheckResult, if_neg hc]
      simp [Except.isOk, Except.toBool, hrange]

/-! ## `CreateRoute` and the engine's descriptor store

The Caddy engine is modelled as a store keyed by the route `@id`; `GetRoute`
answers from the store (404 exactly when the id is absent).  The mutating
requests `CreateRoute` issues are returned as an explicit trace so that
idempotence ("exactly one underlying create call") is statable. -/

/-- One decimal field of a dotted-quad IPv4 literal, per `net.ParseIP`:
one to three digits, no leading zero (except "0" itself), value at most
255. -/
def ipv4FieldOk (cs : List Char) : Bool :=
  decide (0 < cs.length) && decide (cs.length ≤ 3) &&
  cs.all Char.isDigit &&
  (decide (cs.length = 1) || decide (cs.headD '0' ≠ '0')) &&
  decide (cs.foldl (fun n c => n * 10 + (c.toNat - '0'.toNat)) 0 ≤ 255)

/-- `net.ParseIP(s) != nil`, restricted to dotted-quad IPv4 literals (the
only shape the controller ever passes: pod IPs).  IPv6 literals are out of
scope of this model. -/
def goParseIPOk (s : String) : Bool :=
  let parts := s.data.splitOn '.'
  decide (parts.length = 4) && parts.all ipv4FieldOk

/-- The fields of a route descriptor the client reads back from the
engine: `match.host[0]` and `upstreams[0].dial`. -/
structure EngineRoute where
  domain : String
  targetAddr : String
deriving Repr, DecidableEq

/-- A mutating call against the engine's route table. -/
inductive AdminCall where
  | createCall (routeID domain targetAddr : String)
  | deleteCall (routeID : String)
deriving Repr, DecidableEq

/-- The engine's descriptor store, keyed by route `@id`. -/
abbrev Store := List (String × EngineRoute)

/-- `GetRoute` against a reachable engine: the descriptor stored under the
id, or absence (the engine's 404). -/
def getRouteFromStore (store : Store) (routeID : String) : Option EngineRoute :=
  lookupA store routeID

/-- The classification of the POST that submits a new route: 2xx is
success, anything else an error. -/
def postRouteResult (resp : HttpResult) : Except String Unit :=
  match resp with
  | HttpResult.transerr m => Except.error ("failed to call Caddy Admin API: " ++ m)
  | HttpResult.status code body =>
    if 200 ≤ code ∧ code < 300 then
      Except.ok ()
    else
      Except.error ("Caddy Admin API error: " ++ toString code ++ " - " ++ body)

/-- `CreateRoute`: validates its arguments, queries the existing
descriptor, then either skips (identical descriptor), deletes and
recreates (different descriptor), or creates directly (absent).  The
result carries the mutating calls issued, in order.  `deleteResp` and
`postResp` are the engine's answers to the delete and the create. -/
def createRoute (store : Store) (deleteResp postResp : HttpResult)
    (routeID domain targetIP : String) (targetPort : Int) : Except String (List AdminCall) :=
  if routeID = "" then Except.error "routeID cannot be empty"
  else if domain = "" then Except.error "domain cannot be empty"
  else if goParseIPOk targetIP = false then Except.error ("invalid IP address: " ++ targetIP)
  else if targetPort < 1 ∨ targetPort > 65535 then Except.error "port out of range (1-65535)"
  else
    let expectedTargetAddr := targetIP ++ ":" ++ toString targetPort
    match getRouteFromStore store routeID with
    | some existing =>
      if existing.domain = domain ∧ existing.targetAddr = expectedTargetAddr then
        Except.ok []
      else
        match deleteRouteResult routeID deleteResp with
        | Except.error e => Except.error ("failed to delete old route before recreating: " ++ e)
        | Except.ok _ =>
          match postRouteResult postResp with
          | Except.error e => Except.error e
          | Except.ok _ =>
            Except.ok [AdminCall.deleteCall routeID,
              AdminCall.createCall routeID domain expectedTargetAddr]
    | none =>
      match postRouteResult postResp with
      | Except.error e => Except.error e
      | Except.ok _ => Except.ok [AdminCall.createCall routeID domain expectedTargetAddr]

/-- Effect of one mutating call on the engine's store. -/
def applyAdminCall (store : Store) : AdminCall → Store
  | AdminCall.createCall id domain addr => upsertA store id ⟨domain, addr⟩
  | AdminCall.deleteCall id => eraseA store id

/-- Effect of a call trace on the engine's store. -/
def applyAdminCalls (store : Store) (calls : List AdminCall) : Store :=
  calls.foldl applyAdminCall store

/-- `n` successive identical `CreateRoute` invocations; the engine applies
each returned call trace before the next invocation.  Returns the list of
per-invocation results. -/
def repeatCreate (deleteResp postResp : HttpResult) (routeID domain targetIP : String)
    (targetPort : Int) : Nat → Store → List (Except String (List AdminCall))
  | 0, _ => []
  | Nat.succ n, store =>
    let r := createRoute store deleteResp postResp routeID domain targetIP targetPort
    let store' := match r with
      | Except.ok calls => applyAdminCalls store calls
      | Except.error _ => store
    r :: repeatCreate deleteResp postResp routeID domain targetIP targetPort n store'

theorem postRouteResult_ok_elim (resp : HttpResult) (h : (postRouteResult resp).isOk = true) :
    postRouteResult resp = Except.ok () := by
  cases hr : postRouteResult resp with
  | ok u => cases u; rfl
  | error e => rw [hr] at h; simp [Except.isOk, Except.toBool] at h

theorem deleteRouteResult_ok_elim (routeID : String) (resp : HttpResult)
    (h : (deleteRouteResult routeID resp).isOk = true) :
    deleteRouteResult routeID resp = Except.ok () := by
  cases hr : deleteRouteResult routeID resp with
  | ok u => cases u; rfl
  | error e => rw [hr] at h; simp [Except.isOk, Except.toBool] at h

/-- On valid arguments, `CreateRoute` against a store already holding the
identical descriptor issues nothing. -/
theorem createRoute_matched (store : Store) (deleteResp postResp : HttpResult)
    (routeID domain targetIP : String) (targetPort : Int)
    (hid : routeID ≠ "") (hdom : domain ≠ "")
    (hip : goParseIPOk targetIP = true)
    (hport : 1 ≤ targetPort ∧ targetPort ≤ 65535)
    (hmatch : getRouteFromStore store routeID =
      some ⟨domain, targetIP ++ ":" ++ toString targetPort⟩) :
    createRoute store deleteResp postResp routeID domain targetIP targetPort = Except.ok [] := by
  unfold createRoute
  rw [if_neg hid, if_neg hdom, if_neg (by simp [hip]), if_neg (by omega), hmatch]
  simp

/-- After the identical descriptor is in place, every further identical
invocation is a no-op. -/
theorem repeatCreate_matched (deleteResp postResp : HttpResult)
    (routeID domain targetIP : String) (targetPort : Int) (store : Store)
    (hid : routeID ≠ "") (hdom : domain ≠ "")
    (hip : goParseIPOk targetIP = true)
    (hport : 1 ≤ targetPort ∧ targetPort ≤ 65535)
    (hmatch : getRouteFromStore store routeID =
      some ⟨domain, targetIP ++ ":" ++ toString targetPort⟩) (n : Nat) :
    repeatCreate deleteResp postResp routeID domain targetIP targetPort n store =
      List.replicate n (Except.ok []) := by
  induction n with
  | zero => rfl
  | succ m ih =>
    have hc := createRoute_matched store deleteResp postResp routeID domain targetIP targetPort
      hid hdom hip hport hmatch
    simp only [repeatCreate, hc, applyAdminCalls, List.foldl, List.replicate]
    exact congrArg _ ih

/-- C2 (amended): idempotence of `CreateRoute` for non-empty id and
hostname, a well-formed IP and a port in range, when the engine accepts
the mutating calls: a matching descriptor means success with no mutation;
a differing one means exactly one delete then one create; absence means
exactly one create; and `n+1` identical calls from absence issue exactly
one create followed by `n` no-ops. -/
theorem c2_createRoute_idempotent_nonempty
    (store : Store) (deleteResp postResp : HttpResult)
    (routeID domain targetIP : String) (targetPort : Int)
    (hid : routeID ≠ "") (hdom : domain ≠ "")
    (hip : goParseIPOk targetIP = true)
    (hport : 1 ≤ targetPort ∧ targetPort ≤ 65535)
    (hdel : (deleteRouteResult routeID deleteResp).isOk = true)
    (hpost : (postRouteResult postResp).isOk = true) :
    (∀ existing, getRouteFromStore store routeID = some existing →
      existing.domain = domain →
      existing.targetAddr = targetIP ++ ":" ++ toString targetPort →
      createRoute store deleteResp postResp routeID domain targetIP targetPort =
        Except.ok []) ∧
    (∀ existing, getRouteFromStore store routeID = some existing →
      ¬(existing.domain = domain ∧
        existing.targetAddr = targetIP ++ ":" ++ toString targetPort) →
      createRoute store deleteResp postResp routeID domain targetIP targetPort =
        Except.ok [AdminCall.deleteCall routeID,
          AdminCall.createCall routeID domain (targetIP ++ ":" ++ toString targetPort)]) ∧
    (getRouteFromStore store routeID = none →
      createRoute store deleteResp postResp routeID domain targetIP targetPort =
        Except.ok [AdminCall.createCall routeID domain
          (targetIP ++ ":" ++ toString targetPort)]) ∧
    (getRouteFromStore store routeID = none → ∀ n,
      repeatCreate deleteResp postResp routeID domain targetIP targetPort (n + 1) store =
        Except.ok [AdminCall.createCall routeID domain (targetIP ++ ":" ++ toString targetPort)]
          :: List.replicate n (Except.ok [])) := by
  have hdel' := deleteRouteResult_ok_elim routeID deleteResp hdel
  have hpost' := postRouteResult_ok_elim postResp hpost
  have habsent : getRouteFromStore store routeID = none →
      createRoute store deleteResp postResp routeID domain targetIP targetPort =
        Except.ok [AdminCall.createCall routeID domain
          (targetIP ++ ":" ++ toString targetPort)] := by
    intro hnone
    unfold createRoute
    rw [if_neg hid, if_neg hdom, if_neg (by simp [hip]), if_neg (by omega), hnone, hpost']
  refine ⟨?_, ?_, habsent, ?_⟩
  · intro existing hsome hd ht
    have : existing = ⟨domain, targetIP ++ ":" ++ toString targetPort⟩ := by
      cases existing; simp_all
    exact createRoute_matched store deleteResp postResp routeID domain targetIP targetPort
      hid hdom hip hport (this ▸ hsome)
  · intro existing hsome hne
    unfold createRoute
    rw [if_neg hid, if_neg hdom, if_neg (by simp [hip]), if_neg (by omega), hsome]
    simp only [if_neg hne, hdel', hpost']
  · intro hnone n
    have h1 := habsent hnone
    simp only [repeatCreate, h1]
    have hmatch1 : getRouteFromStore
        (applyAdminCalls store [AdminCall.createCall routeID domain
          (targetIP ++ ":" ++ toString targetPort)]) routeID =
        some ⟨domain, targetIP ++ ":" ++ toString targetPort⟩ := by
      simp only [applyAdminCalls, List.foldl, applyAdminCall, getRouteFromStore]
      exact lookupA_upsert_self store routeID _
    exact congrArg _ (repeatCreate_matched deleteResp postResp routeID domain targetIP
      targetPort _ hid hdom hip hport hmatch1 n)

/-- Witness for C2: three identical calls on an initially absent id issue
one create and then two no-ops. -/
theorem c2_createRoute_idempotent_nonempty_witness :
    repeatCreate (HttpResult.status 200 "") (HttpResult.status 200 "")
      "gitspace::abc" "abc.example.com" "10.0.0.1" 8080 3 [] =
      [Except.ok [AdminCall.createCall "gitspace::abc" "abc.example.com" "10.0.0.1:8080"],
        Except.ok [], Except.ok []] := by
  have h := (c2_createRoute_idempotent_nonempty [] (HttpResult.status 200 "")
    (HttpResult.status 200 "") "gitspace::abc" "abc.example.com" "10.0.0.1" 8080
    (by decide) (by decide) (by decide) (by constructor <;> decide)
    (by decide) (by decide)).2.2.2 rfl 2
  simpa using h

/-- Counterexample to C2 as literally stated ("for every id, hostname,
well-formed IP, and port in [1,65535]"): with an empty id (or an empty
hostname) and no existing descriptor, `CreateRoute` issues no create at
all and fails validation instead of succeeding with one create. -/
theorem c2_createRoute_counterexample :
    getRouteFromStore [] "" = none ∧
    createRoute [] (HttpResult.status 200 "") (HttpResult.status 200 "")
      "" "h.example.com" "10.0.0.1" 8080 = Except.error "routeID cannot be empty" ∧
    getRouteFromStore [] "gitspace::abc" = none ∧
    createRoute [] (HttpResult.status 200 "") (HttpResult.status 200 "")
      "gitspace::abc" "" "10.0.0.1" 8080 = Except.error "domain cannot be empty" :=
  ⟨rfl, rfl, rfl, rfl⟩

/-! ## `ListRoutes` and `CleanupDuplicateRoutes`

Both operations read the raw `routes` array of the server.  A raw entry
may lack an `@id` (Caddyfile-defined routes) and may repeat an id (the
known duplicate-append failure mode); `domain` and `targetAddr` stand for
the extracted `match.host[0]` and `upstreams[0].dial` fields. -/

/-- One entry of the raw routes array as the client reads it. -/
structure RawRoute where
  id? : Option String
  domain : String
  targetAddr : String
deriving Repr, DecidableEq

/-- `RouteConfig`: what `ListRoutes`/`GetRoute` return per route. -/
structure RouteConfig where
  id : String
  domain : String
  targetAddr : String
deriving Repr, DecidableEq

/-- Field extraction for one raw entry under a known id. -/
def extractConfig (id : String) (r : RawRoute) : RouteConfig :=
  ⟨id, r.domain, r.targetAddr⟩

/-- One step of `ListRoutes`' dedup loop: skip entries without an `@id`
or with an unmanaged id, otherwise overwrite `configMap[id]`. -/
def listRoutesFold (m : List (String × RouteConfig)) (r : RawRoute) :
    List (String × RouteConfig) :=
  match r.id? with
  | none => m
  | some id => if isManagedRouteID id then upsertA m id (extractConfig id r) else m

/-- `ListRoutes` on a raw listing: build the id-keyed dedup map (last
occurrence wins) and return its values. -/
def listRoutesFrom (raw : List RawRoute) : List RouteConfig :=
  (raw.foldl listRoutesFold []).map (·.2)

/-- The last raw occurrence carrying the given managed id, if any. -/
def lastManaged : List RawRoute → String → Option RawRoute
  | [], _ => none
  | r :: rest, id =>
    match lastManaged rest id with
    | some r' => some r'
    | none =>
      if r.id? = some id ∧ isManagedRouteID id = true then some r else none

theorem lookupA_listRoutes_foldl (raw : List RawRoute)
    (m : List (String × RouteConfig)) (id : String) :
    lookupA (raw.foldl listRoutesFold m) id =
      match lastManaged raw id with
      | some r => some (extractConfig id r)
      | none => lookupA m id := by
  induction raw generalizing m with
  | nil => rfl
  | cons r rest ih =>
    show lookupA (rest.foldl listRoutesFold (listRoutesFold m r)) id = _
    rw [ih]
    cases hr : lastManaged rest id with
    | some r' => simp [lastManaged, hr]
    | none =>
      simp only [lastManaged, hr]
      cases hid : r.id? with
      | none =>
        have : ¬(r.id? = some id ∧ isManagedRouteID id = true) := by
          rw [hid]; rintro ⟨h, -⟩; exact Option.noConfusion h
        simp [listRoutesFold, hid, this]
      | some id' =>
        by_cases hmg : isManagedRouteID id' = true
        · by_cases heq : id' = id
          · subst heq
            have : r.id? = some id' ∧ isManagedRouteID id' = true := ⟨hid, hmg⟩
            simp [listRoutesFold, hid, hmg, this, lookupA_upsert_self]
          · simp [listRoutesFold, hid, hmg, heq, lookupA_upsert_ne _ _ _ _ heq]
        · by_cases heq : id' = id
          · subst heq
            simp [listRoutesFold, hid, hmg]
          · simp [listRoutesFold, hid, hmg, heq]

theorem keysA_upsert_mem {V : Type} (m : List (String × V)) (k v x)
    (h : x ∈ keysA (upsertA m k v)) : x ∈ keysA m ∨ x = k := by
  induction m with
  | nil => simpa [upsertA, keysA] using h
  | cons kv rest ih =>
    by_cases hk : kv.1 = k
    · simp only [upsertA, if_pos hk, keysA, List.map, List.mem_cons] at h ⊢
      rcases h with h | h
      · right; exact h
      · left; right; exact h
    · simp only [upsertA, if_neg hk, keysA, List.map, List.mem_cons] at h ⊢
      rcases h with h | h
      · left; left; exact h
      · rcases ih h with h' | h'
        · left; right; exact h'
        · right; exact h'

theorem keysA_upsert_nodup {V : Type} (m : List (String × V)) (k v)
    (h : (keysA m).Nodup) : (keysA (upsertA m k v)).Nodup := by
  induction m with
  | nil => simp [upsertA, keysA]
  | cons kv rest ih =>
    simp only [keysA, List.map, List.nodup_cons] at h
    by_cases hk : kv.1 = k
    · subst hk
      simp only [upsertA, if_pos rfl, keysA, List.map, List.nodup_cons]
      exact h
    · simp only [upsertA, if_neg hk, keysA, List.map, List.nodup_cons]
      refine ⟨?_, ih h.2⟩
      intro hmem
      rcases keysA_upsert_mem rest k v kv.1 hmem with h' | h'
      · exact h.1 h'
      · exact hk h'

theorem keysA_listRoutes_foldl_nodup (raw : List RawRoute)
    (m : List (String × RouteConfig)) (h : (keysA m).Nodup) :
    (keysA (raw.foldl listRoutesFold m)).Nodup := by
  induction raw generalizing m with
  | nil => exact h
  | cons r rest ih =>
    show (keysA (rest.foldl listRoutesFold (listRoutesFold m r))).Nodup
    refine ih _ ?_
    cases hid : r.id? with
    | none => simpa [listRoutesFold, hid] using h
    | some id' =>
      by_cases hmg : isManagedRouteID id' = true
      · simpa [listRoutesFold, hid, hmg] using keysA_upsert_nodup m id' _ h
      · simpa [listRoutesFold, hid, hmg] using h

theorem upsert_entries_key {V : Type} (m : List (String × V)) (k v kv)
    (h : kv ∈ upsertA m k v) : kv ∈ m ∨ kv = (k, v) := by
  induction m with
  | nil => simpa [upsertA] using h
  | cons kv' rest ih =>
    by_cases hk : kv'.1 = k
    · simp only [upsertA, if_pos hk, List.mem_cons] at h ⊢
      rcases h with h | h
      · right; exact h
      · left; right; exact h
    · simp only [upsertA, if_neg hk, List.mem_cons] at h ⊢
      rcases h with h | h
      · left; left; exact h
      · rcases ih h with h' | h'
        · left; right; exact h'
        · right; exact h'

/-- In every map reachable by `ListRoutes`' loop, the stored config's `id`
field equals its key. -/
theorem listRoutes_foldl_id_inv (raw : List RawRoute)
    (m : List (String × RouteConfig))
    (h : ∀ kv ∈ m, (kv : String × RouteConfig).2.id = kv.1) :
    ∀ kv ∈ raw.foldl listRoutesFold m, (kv : String × RouteConfig).2.id = kv.1 := by
  induction raw generalizing m with
  | nil => exact h
  | cons r rest ih =>
    show ∀ kv ∈ rest.foldl listRoutesFold (listRoutesFold m r), _
    refine ih _ ?_
    intro kv hkv
    cases hid : r.id? with
    | none =>
      simp only [listRoutesFold, hid] at hkv
      exact h kv hkv
    | some id' =>
      by_cases hmg : isManagedRouteID id' = true
      · simp only [listRoutesFold, hid, if_pos hmg] at hkv
        rcases upsert_entries_key m id' _ kv hkv with h' | h'
        · exact h kv h'
        · subst h'; rfl
      · simp only [listRoutesFold, hid, if_neg hmg] at hkv
        exact h kv hkv

theorem mem_iff_lookupA {V : Type} (m : List (String × V)) (k : String) (v : V)
    (h : (keysA m).Nodup) : (k, v) ∈ m ↔ lookupA m k = some v := by
  induction m with
  | nil => simp
  | cons kv rest ih =>
    simp only [keysA, List.map, List.nodup_cons] at h
    constructor
    · intro hmem
      rcases List.mem_cons.mp hmem with h' | h'
      · rw [← h']
        simp [lookupA_cons]
      · have hk : kv.1 ≠ k := by
          intro he
          exact h.1 (he ▸ List.mem_map_of_mem (·.1) h')
        rw [lookupA_cons, if_neg hk]
        exact (ih h.2).mp h'
    · intro hl
      rw [lookupA_cons] at hl
      by_cases hk : kv.1 = k
      · rw [if_pos hk] at hl
        have hkv : kv = (k, v) := by
          cases kv
          simp_all
        rw [← hkv]
        exact List.mem_cons_self _ _
      · rw [if_neg hk] at hl
        exact List.mem_cons_of_mem _ ((ih h.2).mpr hl)

/-- C4: `ListRoutes` deduplicates by identifier.  The returned identifiers
are pairwise distinct, and a descriptor is returned exactly when it is the
extraction of the last raw occurrence of its (managed) identifier — so
each repeated identifier yields exactly one descriptor, carrying the
last-seen configuration. -/
theorem c4_listRoutes_dedup (raw : List RawRoute) (cfg : RouteConfig) :
    ((listRoutesFrom raw).map RouteConfig.id).Nodup ∧
    (cfg ∈ listRoutesFrom raw ↔
      (lastManaged raw cfg.id).map (extractConfig cfg.id) = some cfg) := by
  have hnodup : (keysA (raw.foldl listRoutesFold [])).Nodup :=
    keysA_listRoutes_foldl_nodup raw [] (by simp [keysA])
  have hinv := listRoutes_foldl_id_inv raw [] (by intro kv hkv; cases hkv)
  constructor
  · have : (listRoutesFrom raw).map RouteConfig.id = keysA (raw.foldl listRoutesFold []) := by
      unfold listRoutesFrom keysA
      rw [List.map_map]
      exact List.map_congr_left (fun kv hkv => hinv kv hkv)
    rw [this]
    exact hnodup
  · constructor
    · intro hmem
      rcases List.mem_map.mp hmem with ⟨kv, hkv, hv⟩
      have hkey : kv.1 = cfg.id := by
        rw [← hinv kv hkv, hv]
      have : (cfg.id, cfg) ∈ raw.foldl listRoutesFold [] := by
        have : kv = (cfg.id, cfg) := by
          cases kv
          simp only at hv hkey
          rw [hv, hkey]
        rw [← this]
        exact hkv
      have hl := (mem_iff_lookupA _ cfg.id cfg hnodup).mp this
      rw [lookupA_listRoutes_foldl raw [] cfg.id] at hl
      cases hlm : lastManaged raw cfg.id with
      | some r => rw [hlm] at hl; simpa using hl
      | none => rw [hlm] at hl; simp at hl
    · intro hlast
      rcases Option.map_eq_some'.mp hlast with ⟨r, hr, hext⟩
      have hl : lookupA (raw.foldl listRoutesFold []) cfg.id = some cfg := by
        rw [lookupA_listRoutes_foldl raw [] cfg.id, hr]
        simpa using hext
      have hmem := (mem_iff_lookupA _ cfg.id cfg hnodup).mpr hl
      exact List.mem_map.mpr ⟨(cfg.id, cfg), hmem, rfl⟩

/-- The managed ids of the raw listing, in order and with multiplicity
(`managedRoutes` in the source; `seenIDs` counts its elements). -/
def managedIDs (raw : List RawRoute) : List String :=
  raw.filterMap (fun r =>
    match r.id? with
    | some id => if isManagedRouteID id then some id else none
    | none => none)

/-- The inner `for range count` loop of `CleanupDuplicateRoutes`: `n`
delete attempts for one id, stopping at the first failure.  Returns the
number of successful deletions, the delete calls issued, and the error if
one occurred. -/
def deleteTimes (deleteResp : String → HttpResult) (id : String) :
    Nat → Nat × List String × Option String
  | 0 => (0, [], none)
  | Nat.succ n =>
    match deleteRouteResult id (deleteResp id) with
    | Except.error e => (0, [id], some e)
    | Except.ok _ =>
      let r := deleteTimes deleteResp id n
      (r.1 + 1, id :: r.2.1, r.2.2)

/-- The outer loop over the distinct seen ids: each id with more than one
occurrence has all its occurrences deleted; a failure aborts the loop. -/
def cleanupOver (deleteResp : String → HttpResult) (counts : String → Nat) :
    List String → Nat × List String × Option String
  | [] => (0, [], none)
  | id :: rest =>
    if 1 < counts id then
      let d := deleteTimes deleteResp id (counts id)
      match d.2.2 with
      | some _ => d
      | none =>
        let r := cleanupOver deleteResp counts rest
        (d.1 + r.1, d.2.1 ++ r.2.1, r.2.2)
    else cleanupOver deleteResp counts rest

/-- `CleanupDuplicateRoutes` over a raw listing: count the managed ids and
delete all occurrences of every id occurring more than once.  The Go map
iteration order is unspecified; the model iterates the distinct ids in
first-occurrence order. -/
def cleanupDuplicateRoutes (raw : List RawRoute) (deleteResp : String → HttpResult) :
    Nat × List String × Option String :=
  let ids := managedIDs raw
  cleanupOver deleteResp (fun id => ids.count id) ids.dedup

theorem deleteTimes_ok (deleteResp : String → HttpResult) (id : String) (n : Nat)
    (h : deleteRouteResult id (deleteResp id) = Except.ok ()) :
    deleteTimes deleteResp id n = (n, List.replicate n id, none) := by
  induction n with
  | zero => rfl
  | succ m ih => simp [deleteTimes, h, ih, List.replicate]

/-- The deletions `cleanupOver` performs, as a flat list. -/
def dupDeletes (counts : String → Nat) (ids : List String) : List String :=
  ids.flatMap (fun id => if 1 < counts id then List.replicate (counts id) id else [])

theorem cleanupOver_ok (deleteResp : String → HttpResult) (counts : String → Nat)
    (ids : List String)
    (h : ∀ id ∈ ids, deleteRouteResult id (deleteResp id) = Except.ok ()) :
    cleanupOver deleteResp counts ids =
      ((dupDeletes counts ids).length, dupDeletes counts ids, none) := by
  induction ids with
  | nil => rfl
  | cons id rest ih =>
    have hid := h id (List.mem_cons_self _ _)
    have hrest := ih (fun i hi => h i (List.mem_cons_of_mem _ hi))
    by_cases hc : 1 < counts id
    · simp only [cleanupOver, if_pos hc, deleteTimes_ok deleteResp id (counts id) hid,
        hrest, dupDeletes, List.flatMap_cons, if_pos hc]
      simp [List.length_append, dupDeletes]
    · simp only [cleanupOver, if_neg hc, hrest, dupDeletes, List.flatMap_cons, if_neg hc]
      simp [dupDeletes]

theorem count_dupDeletes_not_mem (counts : String → Nat) (ids : List String) (id : String)
    (h : id ∉ ids) : (dupDeletes counts ids).count id = 0 := by
  induction ids with
  | nil => rfl
  | cons i rest ih =>
    rw [List.mem_cons, not_or] at h
    have hrest := ih h.2
    unfold dupDeletes at hrest ⊢
    rw [List.flatMap_cons, List.count_append, hrest]
    have hne : ¬i = id := fun he => h.1 he.symm
    by_cases hc : 1 < counts i
    · rw [if_pos hc, List.count_replicate]
      simp [hne]
    · simp [hc]

theorem count_dupDeletes (counts : String → Nat) (ids : List String) (id : String)
    (hnd : ids.Nodup) :
    (dupDeletes counts ids).count id =
      if id ∈ ids ∧ 1 < counts id then counts id else 0 := by
  induction ids with
  | nil => simp [dupDeletes]
  | cons i rest ih =>
    rcases List.nodup_cons.mp hnd with ⟨hni, hnr⟩
    have hrest := ih hnr
    unfold dupDeletes at hrest ⊢
    rw [List.flatMap_cons, List.count_append, hrest]
    by_cases heq : id = i
    · subst heq
      by_cases hc : 1 < counts id
      · rw [if_pos hc, List.count_replicate_self]
        simp [hni, hc]
      · simp [hc, hni]
    · have hne : ¬i = id := fun he => heq he.symm
      by_cases hc : 1 < counts i
      · rw [if_pos hc, List.count_replicate]
        simp [hne, List.mem_cons, heq]
      · simp [hc, List.mem_cons, heq]

/-- C5: `CleanupDuplicateRoutes`, when the engine accepts the deletes,
finishes without error; for every identifier, the number of delete calls
it issues for that identifier is the identifier's full occurrence count in
the raw managed listing if that count exceeds one, and zero otherwise
(no delete for unique identifiers); and the returned count equals the
total number of delete calls issued. -/
theorem c5_cleanupDuplicates (raw : List RawRoute) (deleteResp : String → HttpResult)
    (h : ∀ id ∈ managedIDs raw, deleteRouteResult id (deleteResp id) = Except.ok ()) :
    (cleanupDuplicateRoutes raw deleteResp).2.2 = none ∧
    (∀ id, (cleanupDuplicateRoutes raw deleteResp).2.1.count id =
      if 1 < (managedIDs raw).count id then (managedIDs raw).count id else 0) ∧
    (cleanupDuplicateRoutes raw deleteResp).1 =
      (cleanupDuplicateRoutes raw deleteResp).2.1.length := by
  have hdedup : ∀ id ∈ (managedIDs raw).dedup, deleteRouteResult id (deleteResp id) =
      Except.ok () := fun id hid => h id (List.mem_dedup.mp hid)
  have hco := cleanupOver_ok deleteResp (fun id => (managedIDs raw).count id)
    (managedIDs raw).dedup hdedup
  simp only [cleanupDuplicateRoutes]
  rw [hco]
  refine ⟨rfl, ?_, rfl⟩
  intro id
  rw [count_dupDeletes _ _ id (List.nodup_dedup _)]
  by_cases hm : id ∈ managedIDs raw
  · simp [List.mem_dedup, hm]
  · have : (managedIDs raw).count id = 0 := List.count_eq_zero.mpr hm
    simp [List.mem_dedup, hm, this]

/-- Scenario E listing: three raw occurrences of `gitspace::dup1` and one
of `gitspace::unique`. -/
def scenarioE : List RawRoute :=
  [⟨some "gitspace::dup1", "d.example.com", "10.0.0.1:8080"⟩,
   ⟨some "gitspace::dup1", "d.example.com", "10.0.0.1:8080"⟩,
   ⟨some "gitspace::dup1", "d.example.com", "10.0.0.2:8080"⟩,
   ⟨some "gitspace::unique", "u.example.com", "10.0.0.3:8080"⟩]

/-- Witness for C5 (Scenario E): cleanup of `scenarioE` returns
deletedCount 3, with 3 delete calls for the duplicated id and none for the
unique one. -/
theorem c5_cleanupDuplicates_witness :
    (cleanupDuplicateRoutes scenarioE (fun _ => HttpResult.status 200 "")).2.2 = none ∧
    (cleanupDuplicateRoutes scenarioE
      (fun _ => HttpResult.status 200 "")).2.1.count "gitspace::dup1" = 3 ∧
    (cleanupDuplicateRoutes scenarioE
      (fun _ => HttpResult.status 200 "")).2.1.count "gitspace::unique" = 0 ∧
    (cleanupDuplicateRoutes scenarioE (fun _ => HttpResult.status 200 "")).1 = 3 := by
  have h := c5_cleanupDuplicates scenarioE (fun _ => HttpResult.status 200 "")
    (by intro id hid; fin_cases hid <;> rfl)
  refine ⟨h.1, ?_, ?_, ?_⟩
  · have := h.2.1 "gitspace::dup1"
    simpa using this
  · have := h.2.1 "gitspace::unique"
    simpa using this
  · rw [h.2.2]
    decide

/-! ## `k8s/types.go` and the event handler

Deployments and pods are embedded with the fields the handler reads.  The
`*int32` replica pointer becomes `Option Int`; status conditions become a
list searched for the first matching type, as the Go loops do. -/

/-- One status condition (of a deployment or a pod). -/
structure DCondition where
  condType : String
  condStatus : String
deriving Repr, DecidableEq

/-- The deployment fields the controller reads. -/
structure Deployment where
  nsName : String
  name : String
  replicas : Option Int
  labels : List (String × String)
  annotations : List (String × String)
  conditions : List DCondition
deriving Repr, DecidableEq

/-- The pod fields the controller reads. -/
structure Pod where
  name : String
  podIP : String
  conditions : List DCondition
deriving Repr, DecidableEq

/-- `IsPodReady`: the first `Ready` condition decides; none means not
ready. -/
def isPodReady (p : Pod) : Bool :=
  match p.conditions.find? (fun c => c.condType = "Ready") with
  | some c => c.condStatus = "True"
  | none => false

/-- `isDeploymentReady`: the first `Available` condition decides; none
means not ready. -/
def isDeploymentReady (d : Deployment) : Bool :=
  match d.conditions.find? (fun c => c.condType = "Available") with
  | some c => c.condStatus = "True"
  | none => false

/-- `DesiredReplicaCount`: a nil deployment or a nil `Spec.Replicas`
pointer defaults to 1, per Kubernetes semantics. -/
def desiredReplicaCount (d : Option Deployment) : Int :=
  match d with
  | none => 1
  | some dep =>
    match dep.replicas with
    | none => 1
    | some r => r

/-- `GetGitspaceIdentifier`: the `gitspace` label when present and
non-empty, otherwise the empty string. -/
def getGitspaceIdentifier (d : Option Deployment) : String :=
  match d with
  | none => ""
  | some dep =>
    match lookupA dep.labels "gitspace" with
    | some identifier => if identifier ≠ "" then identifier else ""
    | none => ""

/-- `strconv.Atoi`, without the 64-bit range check (the ports involved are
small): optional sign followed by at least one digit. -/
def goAtoi (s : String) : Option Int :=
  let digitsVal : List Char → Int :=
    fun cs => cs.foldl (fun n c => n * 10 + ((c.toNat : Int) - ('0'.toNat : Int))) 0
  match s.data with
  | [] => none
  | '-' :: rest =>
    if rest ≠ [] ∧ rest.all Char.isDigit then some (-(digitsVal rest)) else none
  | '+' :: rest =>
    if rest ≠ [] ∧ rest.all Char.isDigit then some (digitsVal rest) else none
  | cs => if cs.all Char.isDigit then some (digitsVal cs) else none

/-- `GetPortFromAnnotation`: a missing annotation yields the default; an
unparsable or out-of-range one is an error. -/
def getPortFromAnnotation (annotations : List (String × String)) (defaultPort : Int) :
    Except String Int :=
  match lookupA annotations "gitspace.caddy.default.port" with
  | none => Except.ok defaultPort
  | some portStr =>
    match goAtoi portStr with
    | none => Except.error ("invalid port annotation: " ++ portStr)
    | some port =>
      if port < 1 ∨ port > 65535 then Except.error "port out of range (1-65535)"
      else Except.ok port

/-- Outcome of one event-handler invocation.  `panicked` marks a nil
pointer dereference (the Go runtime panic). -/
inductive HandlerOutcome where
  | panicked
  | ok
  | failed (msg : String)
deriving Repr, DecidableEq

/-- A call the handler makes against its collaborators. -/
inductive ClientCall where
  | create (routeID domain podIP : String) (port : Int)
  | del (routeID : String)
  | patchAnn (deploymentKey : String)
deriving Repr, DecidableEq

/-- `findReadyPod`: list the deployment's pods (the argument stands for
the k8s List call's result) and return the first ready one. -/
def findReadyPod (pods : Except String (List Pod)) : Except String (Option Pod) :=
  match pods with
  | Except.error e => Except.error e
  | Except.ok ps => Except.ok (ps.find? isPodReady)

/-- `RouteInfo`: the tracker value of the revised tracker (route id plus
cached target address). -/
structure RouteInfo where
  routeID : String
  targetAddr : String
deriving Repr, DecidableEq

/-- `createRoute` of the original handler (`handler.go`): annotation port
(falling back to the default on error), id `k8s-<ns>-<name>`, hostname
`<name>.<baseDomain>`; on success the tracker records the id and the
annotations are patched best-effort (a patch failure is only logged, so it
is not a parameter).  `createErr` is the admin client's answer. -/
def createRoute_legacy (createErr : Option String) (baseDomain : String) (defaultPort : Int)
    (d : Deployment) (pod : Pod) (tracker : List (String × String)) :
    HandlerOutcome × List ClientCall × List (String × String) :=
  let port := match getPortFromAnnotation d.annotations defaultPort with
    | Except.ok p => p
    | Except.error _ => defaultPort
  let deploymentKey := d.nsName ++ "/" ++ d.name
  let routeID := "k8s-" ++ d.nsName ++ "-" ++ d.name
  let domain := d.name ++ "." ++ baseDomain
  match createErr with
  | some e =>
    (HandlerOutcome.failed e, [ClientCall.create routeID domain pod.podIP port], tracker)
  | none =>
    (HandlerOutcome.ok,
      [ClientCall.create routeID domain pod.podIP port, ClientCall.patchAnn deploymentKey],
      upsertA tracker deploymentKey routeID)

/-- `OnDeploymentAdd` of the original handler (`handler.go`): the
skip-branch's debug log evaluates `*deployment.Spec.Replicas`, so a nil
replica pointer is dereferenced and the process panics. -/
def onDeploymentAdd_legacy (createErr : Option String) (baseDomain : String)
    (defaultPort : Int) (pods : Except String (List Pod)) (d : Deployment)
    (tracker : List (String × String)) :
    HandlerOutcome × List ClientCall × List (String × String) :=
  if d.replicas = none ∨ d.replicas ≠ some 1 then
    match d.replicas with
    | none => (HandlerOutcome.panicked, [], tracker)
    | some _ => (HandlerOutcome.ok, [], tracker)
  else
    match findReadyPod pods with
    | Except.error e => (HandlerOutcome.failed e, [], tracker)
    | Except.ok none => (HandlerOutcome.ok, [], tracker)
    | Except.ok (some pod) => createRoute_legacy createErr baseDomain defaultPort d pod tracker

/-- The route-id scheme of the handler revision (`k8s:` marker, namespace
and name joined by a colon). -/
def buildRouteID_k8s (namespaceName name : String) : String :=
  "k8s:" ++ namespaceName ++ ":" ++ name

/-- `createRoute` of the revised handler (`src/unnamed/part_006`): same
shape as the original, but the id comes from the route-id scheme and the
tracker caches the target address too. -/
def createRoute_v2 (createErr : Option String) (baseDomain : String) (defaultPort : Int)
    (d : Deployment) (pod : Pod) (tracker : List (String × RouteInfo)) :
    HandlerOutcome × List ClientCall × List (String × RouteInfo) :=
  let port := match getPortFromAnnotation d.annotations defaultPort with
    | Except.ok p => p
    | Except.error _ => defaultPort
  let deploymentKey := d.nsName ++ "/" ++ d.name
  let routeID := buildRouteID_k8s d.nsName d.name
  let domain := d.name ++ "." ++ baseDomain
  match createErr with
  | some e =>
    (HandlerOutcome.failed e, [ClientCall.create routeID domain pod.podIP port], tracker)
  | none =>
    let targetAddr := pod.podIP ++ ":" ++ toString port
    (HandlerOutcome.ok,
      [ClientCall.create routeID domain pod.podIP port, ClientCall.patchAnn deploymentKey],
      upsertA tracker deploymentKey ⟨routeID, targetAddr⟩)

/-- `OnDeploymentAdd` of the revised handler (`src/unnamed/part_006`):
guards the replica log value (no nil dereference), requires deployment
readiness, then finds a ready pod and creates the route. -/
def onDeploymentAdd_v2 (createErr : Option String) (baseDomain : String)
    (defaultPort : Int) (pods : Except String (List Pod)) (d : Deployment)
    (tracker : List (String × RouteInfo)) :
    HandlerOutcome × List ClientCall × List (String × RouteInfo) :=
  if d.replicas = none ∨ d.replicas ≠ some 1 then
    (HandlerOutcome.ok, [], tracker)
  else if isDeploymentReady d = false then
    (HandlerOutcome.ok, [], tracker)
  else
    match findReadyPod pods with
    | Except.error e => (HandlerOutcome.failed e, [], tracker)
    | Except.ok none => (HandlerOutcome.ok, [], tracker)
    | Except.ok (some pod) => createRoute_v2 createErr baseDomain defaultPort d pod tracker

/-- A ready pod at 10.0.0.5. -/
def readyPod : Pod := ⟨"web-pod", "10.0.0.5", [⟨"Ready", "True"⟩]⟩

/-- A ready deployment whose `Spec.Replicas` pointer is unset. -/
def nilReplicaDeployment : Deployment :=
  ⟨"default", "web", none, [("gitspace", "web")], [], [⟨"Available", "True"⟩]⟩

/-- C3: on a deployment whose `Spec.Replicas` pointer is nil,
`OnDeploymentAdd` of `handler.go` panics (the skip log dereferences the
nil pointer) instead of returning normally; the revised handler of
`src/unnamed/part_006` guards the dereference and returns normally on the
same input. -/
theorem c3_onDeploymentAdd_nil_replicas_panics :
    (onDeploymentAdd_legacy none "example.com" 8089 (Except.ok [readyPod])
      nilReplicaDeployment []).1 = HandlerOutcome.panicked ∧
    (onDeploymentAdd_v2 none "example.com" 8089 (Except.ok [readyPod])
      nilReplicaDeployment []).1 = HandlerOutcome.ok :=
  ⟨rfl, rfl⟩

/-- Counterexample to C8 as stated: a ready deployment with an unset
replica pointer and an available ready pod satisfies the claim's
eligibility reading (`DesiredReplicaCount` = 1, ready, resolvable target),
yet the event path issues no call at all — no route is established. -/
theorem c8_nil_replicas_counterexample :
    desiredReplicaCount (some nilReplicaDeployment) = 1 ∧
    isDeploymentReady nilReplicaDeployment = true ∧
    findReadyPod (Except.ok [readyPod]) = Except.ok (some readyPod) ∧
    onDeploymentAdd_v2 none "example.com" 8089 (Except.ok [readyPod])
      nilReplicaDeployment [] = (HandlerOutcome.ok, [], []) :=
  ⟨rfl, rfl, rfl, rfl⟩

/-- C8 (amended): `DesiredReplicaCount` treats an unset replica pointer as
exactly 1 (so the reconciler's eligibility computation counts such
workloads), but the event path does not: `OnDeploymentAdd` skips every
deployment whose `Spec.Replicas` pointer is nil, returning success with no
client call and an unchanged tracker. -/
theorem c8_nil_replicas_event_path (createErr : Option String) (baseDomain : String)
    (defaultPort : Int) (pods : Except String (List Pod)) (d : Deployment)
    (tracker : List (String × RouteInfo)) (h : d.replicas = none) :
    onDeploymentAdd_v2 createErr baseDomain defaultPort pods d tracker =
      (HandlerOutcome.ok, [], tracker) ∧
    desiredReplicaCount (some d) = 1 := by
  constructor
  · unfold onDeploymentAdd_v2
    rw [if_pos (Or.inl h)]
  · simp [desiredReplicaCount, h]

/-- Witness for C8 (amended): the concrete nil-replica deployment is
skipped by the event path while counting as a single-replica workload. -/
theorem c8_nil_replicas_event_path_witness :
    onDeploymentAdd_v2 none "example.com" 8089 (Except.ok []) nilReplicaDeployment [] =
      (HandlerOutcome.ok, [], []) ∧
    desiredReplicaCount (some nilReplicaDeployment) = 1 :=
  c8_nil_replicas_event_path none "example.com" 8089 (Except.ok []) nilReplicaDeployment [] rfl

/-! ## `reconcileRoutesWithK8s` (`module.go`)

One periodic reconciliation pass: list the managed routes, compute the
expected route-id set and the identifier-to-deployment-key map from the
eligible deployments, delete every listed managed route not expected, and
— after a successful delete — remove the tracker entry found through
`ParseRouteID` and the identifier map.  The pass never creates routes. -/

/-- The eligibility loop over the deployment listing: collect the expected
route id and record identifier → deployment key for each deployment with
desired replica count 1, readiness, and a non-empty gitspace
identifier. -/
def eligibleAccum (acc : List String × List (String × String)) (d : Deployment) :
    List String × List (String × String) :=
  if desiredReplicaCount (some d) ≠ 1 then acc
  else if isDeploymentReady d = false then acc
  else
    let gid := getGitspaceIdentifier (some d)
    if gid = "" then acc
    else (acc.1 ++ [buildRouteID gid], upsertA acc.2 gid (d.nsName ++ "/" ++ d.name))

/-- Expected route ids and identifier map of one reconciliation pass. -/
def expectedAndMap (deployments : List Deployment) : List String × List (String × String) :=
  deployments.foldl eligibleAccum ([], [])

/-- One iteration of the orphan-deletion loop: skip expected routes;
otherwise issue the delete and, when it succeeds, drop the tracker entry
of the deployment the parsed identifier maps to (a failed delete is only
logged and leaves the tracker alone). -/
def reconcileStep (deleteResp : String → HttpResult) (expected : List String)
    (gidToKey : List (String × String))
    (acc : List AdminCall × List (String × RouteInfo)) (route : RouteConfig) :
    List AdminCall × List (String × RouteInfo) :=
  if route.id ∈ expected then acc
  else
    match deleteRouteResult route.id (deleteResp route.id) with
    | Except.error _ => (acc.1 ++ [AdminCall.deleteCall route.id], acc.2)
    | Except.ok _ =>
      let tr := match parseRouteID route.id with
        | Except.ok gid =>
          match lookupA gidToKey gid with
          | some key => eraseA acc.2 key
          | none => acc.2
        | Except.error _ => acc.2
      (acc.1 ++ [AdminCall.deleteCall route.id], tr)

/-- The managed routes of the raw listing as the pass sees them
(`ListRoutes` output filtered by `IsManagedRouteID`). -/
def managedListed (raw : List RawRoute) : List RouteConfig :=
  (listRoutesFrom raw).filter (fun r => isManagedRouteID r.id)

/-- `reconcileRoutesWithK8s`: the full pass over a raw route listing, a
deployment listing, and the current tracker.  Returns the mutating calls
issued and the resulting tracker. -/
def reconcileRoutesWithK8s (raw : List RawRoute) (deployments : List Deployment)
    (deleteResp : String → HttpResult) (tracker : List (String × RouteInfo)) :
    List AdminCall × List (String × RouteInfo) :=
  (managedListed raw).foldl
    (reconcileStep deleteResp (expectedAndMap deployments).1 (expectedAndMap deployments).2)
    ([], tracker)

/-- The tracker effect of one orphan-deletion iteration, in isolation. -/
def trackStep (deleteResp : String → HttpResult) (expected : List String)
    (gidToKey : List (String × String)) (tr : List (String × RouteInfo))
    (route : RouteConfig) : List (String × RouteInfo) :=
  if route.id ∈ expected then tr
  else
    match deleteRouteResult route.id (deleteResp route.id) with
    | Except.error _ => tr
    | Except.ok _ =>
      match parseRouteID route.id with
      | Except.ok gid =>
        match lookupA gidToKey gid with
        | some key => eraseA tr key
        | none => tr
      | Except.error _ => tr

theorem reconcileStep_split (deleteResp : String → HttpResult) (expected : List String)
    (gidToKey : List (String × String)) (cs : List AdminCall)
    (tr : List (String × RouteInfo)) (route : RouteConfig) :
    reconcileStep deleteResp expected gidToKey (cs, tr) route =
      (cs ++ (if route.id ∈ expected then [] else [AdminCall.deleteCall route.id]),
       trackStep deleteResp expected gidToKey tr route) := by
  by_cases he : route.id ∈ expected
  · simp [reconcileStep, trackStep, he]
  · cases hd : deleteRouteResult route.id (deleteResp route.id) with
    | error e => simp [reconcileStep, trackStep, he, hd]
    | ok u => cases u; simp [reconcileStep, trackStep, he, hd]

theorem reconcile_foldl_split (deleteResp : String → HttpResult) (expected : List String)
    (gidToKey : List (String × String)) (routes : List RouteConfig)
    (cs : List AdminCall) (tr : List (String × RouteInfo)) :
    routes.foldl (reconcileStep deleteResp expected gidToKey) (cs, tr) =
      (cs ++ routes.filterMap (fun r =>
        if r.id ∈ expected then none else some (AdminCall.deleteCall r.id)),
       routes.foldl (trackStep deleteResp expected gidToKey) tr) := by
  induction routes generalizing cs tr with
  | nil => simp
  | cons r rest ih =>
    show rest.foldl _ (reconcileStep deleteResp expected gidToKey (cs, tr) r) = _
    rw [reconcileStep_split, ih]
    by_cases he : r.id ∈ expected
    · simp [he, List.filterMap_cons]
    · simp [he, List.filterMap_cons]

/-- A managed route targets a tracker key when it is an orphan whose
parsed identifier the eligibility map sends to that key. -/
def targetsKey (expected : List String) (gidToKey : List (String × String))
    (r : RouteConfig) (key : String) : Prop :=
  r.id ∉ expected ∧
    ∃ gid, parseRouteID r.id = Except.ok gid ∧ lookupA gidToKey gid = some key

theorem lookupA_erase_none {V : Type} (m : List (String × V)) (k key : String)
    (h : lookupA m key = none) : lookupA (eraseA m k) key = none := by
  by_cases he : k = key
  · subst he; exact lookupA_erase_self m k
  · rw [lookupA_erase_ne m k key he]; exact h

theorem trackStep_none (deleteResp : String → HttpResult) (expected : List String)
    (gidToKey : List (String × String)) (tr : List (String × RouteInfo))
    (route : RouteConfig) (key : String) (h : lookupA tr key = none) :
    lookupA (trackStep deleteResp expected gidToKey tr route) key = none := by
  by_cases he : route.id ∈ expected
  · simp [trackStep, he, h]
  · cases hd : deleteRouteResult route.id (deleteResp route.id) with
    | error e => simp [trackStep, he, hd, h]
    | ok u =>
      cases hp : parseRouteID route.id with
      | error e => simp [trackStep, he, hd, hp, h]
      | ok gid =>
        cases hl : lookupA gidToKey gid with
        | none => simp [trackStep, he, hd, hp, hl, h]
        | some key' => simp [trackStep, he, hd, hp, hl, lookupA_erase_none tr key' key h]

theorem trackFold_none (deleteResp : String → HttpResult) (expected : List String)
    (gidToKey : List (String × String)) (routes : List RouteConfig)
    (tr : List (String × RouteInfo)) (key : String) (h : lookupA tr key = none) :
    lookupA (routes.foldl (trackStep deleteResp expected gidToKey) tr) key = none := by
  induction routes generalizing tr with
  | nil => exact h
  | cons r rest ih =>
    exact ih _ (trackStep_none deleteResp expected gidToKey tr r key h)

theorem trackFold_removed (deleteResp : String → HttpResult) (expected : List String)
    (gidToKey : List (String × String)) (routes : List RouteConfig)
    (tr : List (String × RouteInfo)) (key : String) (r : RouteConfig)
    (hmem : r ∈ routes) (ht : targetsKey expected gidToKey r key)
    (hdel : ∀ r' ∈ routes, deleteRouteResult r'.id (deleteResp r'.id) = Except.ok ()) :
    lookupA (routes.foldl (trackStep deleteResp expected gidToKey) tr) key = none := by
  induction routes generalizing tr with
  | nil => cases hmem
  | cons r0 rest ih =>
    rw [List.foldl_cons]
    rcases List.mem_cons.mp hmem with heq | hmem'
    · subst heq
      have hstep : lookupA (trackStep deleteResp expected gidToKey tr r) key = none := by
        rcases ht with ⟨hne, gid, hp, hl⟩
        simp [trackStep, hne, hdel r (List.mem_cons_self _ _), hp, hl,
          lookupA_erase_self]
      exact trackFold_none deleteResp expected gidToKey rest _ key hstep
    · exact ih _ hmem' (fun r' h' => hdel r' (List.mem_cons_of_mem _ h'))

theorem trackFold_preserved (deleteResp : String → HttpResult) (expected : List String)
    (gidToKey : List (String × String)) (routes : List RouteConfig)
    (tr : List (String × RouteInfo)) (key : String)
    (h : ∀ r ∈ routes, ¬targetsKey expected gidToKey r key) :
    lookupA (routes.foldl (trackStep deleteResp expected gidToKey) tr) key =
      lookupA tr key := by
  induction routes generalizing tr with
  | nil => rfl
  | cons r0 rest ih =>
    have hstep : lookupA (trackStep deleteResp expected gidToKey tr r0) key =
        lookupA tr key := by
      have h0 := h r0 (List.mem_cons_self _ _)
      by_cases he : r0.id ∈ expected
      · simp [trackStep, he]
      · cases hd : deleteRouteResult r0.id (deleteResp r0.id) with
        | error e => simp [trackStep, he, hd]
        | ok u =>
          cases hp : parseRouteID r0.id with
          | error e => simp [trackStep, he, hd, hp]
          | ok gid =>
            cases hl : lookupA gidToKey gid with
            | none => simp [trackStep, he, hd, hp, hl]
            | some key' =>
              have hne : key' ≠ key := by
                intro hk
                exact h0 ⟨he, gid, hp, hk ▸ hl⟩
              simp [trackStep, he, hd, hp, hl, lookupA_erase_ne tr key' key hne]
    rw [List.foldl_cons, ih _ (fun r' h' => h r' (List.mem_cons_of_mem _ h')), hstep]

theorem isManagedRouteID_ne_empty (id : String) (h : isManagedRouteID id = true) :
    id ≠ "" := by
  intro he
  subst he
  exact absurd h (by decide)

/-- C7 (amended): one reconciliation pass deletes exactly the managed
listed routes outside the expected set, issues no route-creation call, and
touches the tracker only through the identifier map built from currently
eligible workloads: a key is removed exactly when some deleted orphan's
parsed identifier maps to it, and every other key keeps its entry — in
particular the tracker entry of a workload that is no longer eligible
survives the deletion of its orphaned route. -/
theorem c7_reconcile_orphan_cleanup (raw : List RawRoute) (deployments : List Deployment)
    (deleteResp : String → HttpResult) (tracker : List (String × RouteInfo))
    (hdel : ∀ id, isManagedRouteID id = true →
      deleteRouteResult id (deleteResp id) = Except.ok ()) :
    (reconcileRoutesWithK8s raw deployments deleteResp tracker).1 =
      (managedListed raw).filterMap (fun r =>
        if r.id ∈ (expectedAndMap deployments).1 then none
        else some (AdminCall.deleteCall r.id)) ∧
    (∀ c ∈ (reconcileRoutesWithK8s raw deployments deleteResp tracker).1,
      ∃ id, c = AdminCall.deleteCall id) ∧
    (∀ key r, r ∈ managedListed raw →
      targetsKey (expectedAndMap deployments).1 (expectedAndMap deployments).2 r key →
      lookupA (reconcileRoutesWithK8s raw deployments deleteResp tracker).2 key = none) ∧
    (∀ key, (∀ r ∈ managedListed raw,
        ¬targetsKey (expectedAndMap deployments).1 (expectedAndMap deployments).2 r key) →
      lookupA (reconcileRoutesWithK8s raw deployments deleteResp tracker).2 key =
        lookupA tracker key) := by
  have hdel' : ∀ r ∈ managedListed raw,
      deleteRouteResult r.id (deleteResp r.id) = Except.ok () := by
    intro r hr
    have hr' : r ∈ (listRoutesFrom raw).filter (fun r => isManagedRouteID r.id) := hr
    exact hdel r.id (by simpa using (List.mem_filter.mp hr').2)
  have hsplit := reconcile_foldl_split deleteResp (expectedAndMap deployments).1
    (expectedAndMap deployments).2 (managedListed raw) [] tracker
  have hre1 : (reconcileRoutesWithK8s raw deployments deleteResp tracker).1 =
      (managedListed raw).filterMap (fun r =>
        if r.id ∈ (expectedAndMap deployments).1 then none
        else some (AdminCall.deleteCall r.id)) := by
    unfold reconcileRoutesWithK8s
    rw [hsplit]
    simp
  have hre2 : (reconcileRoutesWithK8s raw deployments deleteResp tracker).2 =
      (managedListed raw).foldl
        (trackStep deleteResp (expectedAndMap deployments).1 (expectedAndMap deployments).2)
        tracker := by
    unfold reconcileRoutesWithK8s
    rw [hsplit]
  refine ⟨hre1, ?_, ?_, ?_⟩
  · intro c hc
    rw [hre1] at hc
    rcases List.mem_filterMap.mp hc with ⟨r, hr, hif⟩
    by_cases he : r.id ∈ (expectedAndMap deployments).1
    · rw [if_pos he] at hif
      cases hif
    · rw [if_neg he] at hif
      exact ⟨r.id, (Option.some.inj hif).symm⟩
  · intro key r hr ht
    rw [hre2]
    exact trackFold_removed _ _ _ _ tracker key r hr ht hdel'
  · intro key hkey
    rw [hre2]
    exact trackFold_preserved _ _ _ _ tracker key hkey

/-- A raw listing holding one orphaned managed route. -/
def orphanRaw : List RawRoute :=
  [⟨some "gitspace::abc", "abc.example.com", "10.0.0.5:8089"⟩]

/-- A tracker holding the entry established for that route's workload. -/
def orphanTracker : List (String × RouteInfo) :=
  [("default/abc", ⟨"gitspace::abc", "10.0.0.5:8089"⟩)]

/-- Counterexample to C7 as stated: the engine holds the orphaned route
`gitspace::abc` whose workload is gone (no eligible deployment), and the
tracker still holds the corresponding entry.  The pass deletes the route
but leaves the tracker entry in place (the identifier map only covers
currently eligible workloads, and the parsed identifier `:abc` would not
match the raw identifier `abc` anyway), contradicting "removes the
corresponding Tracker entry for each deleted orphan when one is
present". -/
theorem c7_tracker_entry_survives_counterexample :
    reconcileRoutesWithK8s orphanRaw [] (fun _ => HttpResult.status 200 "") orphanTracker =
      ([AdminCall.deleteCall "gitspace::abc"], orphanTracker) ∧
    lookupA orphanTracker "default/abc" =
      some ⟨"gitspace::abc", "10.0.0.5:8089"⟩ :=
  ⟨rfl, rfl⟩

/-- Witness for C7 (amended): on the orphan listing with no eligible
deployment, the pass issues exactly the one delete call for the orphan and
no creation. -/
theorem c7_reconcile_orphan_cleanup_witness :
    (reconcileRoutesWithK8s orphanRaw [] (fun _ => HttpResult.status 200 "") []).1 =
      [AdminCall.deleteCall "gitspace::abc"] := by
  have h := (c7_reconcile_orphan_cleanup orphanRaw [] (fun _ => HttpResult.status 200 "") []
    (fun id hm => by
      simp [deleteRouteResult, isManagedRouteID_ne_empty id hm])).1
  rw [h]
  rfl

/-! ## `router/tracker.go` — heap model for the defensive copy

Go maps are reference values, so "List returns a defensive copy" is an
aliasing statement.  The model makes the aliasing explicit: an arena of
map objects, a tracker holding the index (reference) of its internal map,
and `List` allocating a fresh cell.  Mutating a returned reference is
`writeA` at that reference; the tracker observations (`Get`, `List`
contents, `Count`) are functions of the cell at the tracker's own
reference. -/

/-- The contents of one Go map object of the original tracker. -/
abbrev MapA := List (String × String)

/-- An arena of map objects; an index into it is a map reference. -/
structure HeapA where
  arena : List MapA
deriving Repr

/-- Dereference a map reference. -/
def readA (h : HeapA) (r : Nat) : MapA := (h.arena.get? r).getD []

/-- Overwrite the object behind a reference (any in-place mutation of that
map object). -/
def writeA (h : HeapA) (r : Nat) (m : MapA) : HeapA := ⟨h.arena.set r m⟩

/-- Allocate a fresh map object; the new reference is distinct from every
live one. -/
def allocA (h : HeapA) (m : MapA) : HeapA × Nat := (⟨h.arena ++ [m]⟩, h.arena.length)

/-- A tracker: the reference to its internal `routes` map. -/
structure TrackerRefA where
  ref : Nat
deriving Repr, DecidableEq

/-- `Set`: `t.routes[deploymentKey] = routeID`. -/
def trackerSetA (h : HeapA) (t : TrackerRefA) (k v : String) : HeapA :=
  writeA h t.ref (upsertA (readA h t.ref) k v)

/-- `Get`: lookup in the internal map. -/
def trackerGetA (h : HeapA) (t : TrackerRefA) (k : String) : Option String :=
  lookupA (readA h t.ref) k

/-- `Delete`: `delete(t.routes, deploymentKey)`. -/
def trackerDeleteA (h : HeapA) (t : TrackerRefA) (k : String) : HeapA :=
  writeA h t.ref (eraseA (readA h t.ref) k)

/-- `Count`: `len(t.routes)`. -/
def trackerCountA (h : HeapA) (t : TrackerRefA) : Nat := (readA h t.ref).length

/-- The copy loop of `List`: `result := make(...); for k, v { result[k] = v }`. -/
def copyMapA (m : MapA) : MapA :=
  m.foldl (fun acc kv => upsertA acc kv.1 kv.2) []

/-- `List`: allocate a fresh map holding a copy of the entries and return
its reference. -/
def trackerListA (h : HeapA) (t : TrackerRefA) : HeapA × Nat :=
  allocA h (copyMapA (readA h t.ref))

/-- The last binding for a key in an association list (Go-map insertion
order semantics of a copy loop). -/
def lastBindA {V : Type} : List (String × V) → String → Option V
  | [], _ => none
  | kv :: rest, k =>
    match lastBindA rest k with
    | some v => some v
    | none => if kv.1 = k then some kv.2 else none

theorem lastBindA_none_of_not_mem {V : Type} (m : List (String × V)) (k : String)
    (h : k ∉ keysA m) : lastBindA m k = none := by
  induction m with
  | nil => rfl
  | cons kv rest ih =>
    simp only [keysA, List.map, List.mem_cons, not_or] at h
    have hne : kv.1 ≠ k := fun he => h.1 he.symm
    rw [lastBindA, ih (by simpa [keysA] using h.2)]
    simp [hne]

theorem lastBindA_of_nodup {V : Type} (m : List (String × V)) (k : String)
    (h : (keysA m).Nodup) : lastBindA m k = lookupA m k := by
  induction m with
  | nil => rfl
  | cons kv rest ih =>
    simp only [keysA, List.map, List.nodup_cons] at h
    by_cases hk : kv.1 = k
    · subst hk
      rw [lastBindA, lastBindA_none_of_not_mem rest kv.1 (by simpa [keysA] using h.1)]
      simp [lookupA_cons]
    · rw [lastBindA, ih h.2, lookupA_cons, if_neg hk]
      cases lookupA rest k <;> simp [hk]

theorem lookupA_upsert_foldl {V : Type} (m : List (String × V))
    (init : List (String × V)) (k : String) :
    lookupA (m.foldl (fun acc kv => upsertA acc kv.1 kv.2) init) k =
      match lastBindA m k with
      | some v => some v
      | none => lookupA init k := by
  induction m generalizing init with
  | nil => rfl
  | cons kv rest ih =>
    rw [List.foldl_cons, ih]
    cases hr : lastBindA rest k with
    | some v => simp [lastBindA, hr]
    | none =>
      by_cases hk : kv.1 = k
      · subst hk
        simp [lastBindA, hr, lookupA_upsert_self]
      · simp [lastBindA, hr, hk, lookupA_upsert_ne _ _ _ _ hk]

/-- The copy of a well-formed map has the same bindings. -/
theorem lookupA_copyMapA (m : MapA) (k : String) (h : (keysA m).Nodup) :
    lookupA (copyMapA m) k = lookupA m k := by
  rw [copyMapA, lookupA_upsert_foldl, lastBindA_of_nodup m k h]
  cases lookupA m k <;> rfl

theorem readA_writeA_self (h : HeapA) (r : Nat) (m : MapA) (hr : r < h.arena.length) :
    readA (writeA h r m) r = m := by
  simp [readA, writeA, List.get?_eq_getElem?, List.getElem?_set_self hr]

theorem readA_writeA_ne (h : HeapA) (r r' : Nat) (m : MapA) (hne : r ≠ r') :
    readA (writeA h r m) r' = readA h r' := by
  simp [readA, writeA, List.get?_eq_getElem?, List.getElem?_set_ne hne]

theorem readA_allocA (h : HeapA) (m : MapA) :
    readA (allocA h m).1 (allocA h m).2 = m := by
  simp [readA, allocA, List.get?_eq_getElem?, List.getElem?_concat_length]

theorem readA_allocA_old (h : HeapA) (m : MapA) (r : Nat) (hr : r < h.arena.length) :
    readA (allocA h m).1 r = readA h r := by
  simp [readA, allocA, List.get?_eq_getElem?, List.getElem?_append_left hr]

/-! ## The revised tracker (`src/unnamed/part_010`) — pointer values

The revised tracker stores `*RouteInfo`, so `List` must copy the values
too: `result[k] = &RouteInfo{v.RouteID, v.TargetAddr}` allocates a fresh
object per entry.  The model adds an arena of `RouteInfo` objects; map
values are indices (pointers) into it. -/

/-- The contents of one map object of the revised tracker: key →
pointer. -/
abbrev MapB := List (String × Nat)

/-- An arena of map objects and an arena of `RouteInfo` objects. -/
structure HeapB where
  maps : List MapB
  infos : List RouteInfo
deriving Repr

/-- The revised tracker: the reference to its internal map. -/
structure TrackerRefB where
  ref : Nat
deriving Repr, DecidableEq

def readMapB (h : HeapB) (r : Nat) : MapB := (h.maps.get? r).getD []

def writeMapB (h : HeapB) (r : Nat) (m : MapB) : HeapB := ⟨h.maps.set r m, h.infos⟩

def allocMapB (h : HeapB) (m : MapB) : HeapB × Nat :=
  (⟨h.maps ++ [m], h.infos⟩, h.maps.length)

def readInfoB (h : HeapB) (p : Nat) : RouteInfo := (h.infos.get? p).getD ⟨"", ""⟩

def writeInfoB (h : HeapB) (p : Nat) (v : RouteInfo) : HeapB := ⟨h.maps, h.infos.set p v⟩

def allocInfoB (h : HeapB) (v : RouteInfo) : HeapB × Nat :=
  (⟨h.maps, h.infos ++ [v]⟩, h.infos.length)

/-- `Set`: allocate `&RouteInfo{...}` and bind the key to it. -/
def trackerSetB (h : HeapB) (t : TrackerRefB) (k routeID targetAddr : String) : HeapB :=
  let hp := allocInfoB h ⟨routeID, targetAddr⟩
  writeMapB hp.1 t.ref (upsertA (readMapB hp.1 t.ref) k hp.2)

/-- `Get`, observed at the value level (the caller reads through the
pointer). -/
def trackerGetB (h : HeapB) (t : TrackerRefB) (k : String) : Option RouteInfo :=
  (lookupA (readMapB h t.ref) k).map (readInfoB h)

/-- `Delete`. -/
def trackerDeleteB (h : HeapB) (t : TrackerRefB) (k : String) : HeapB :=
  writeMapB h t.ref (eraseA (readMapB h t.ref) k)

/-- `Count`. -/
def trackerCountB (h : HeapB) (t : TrackerRefB) : Nat := (readMapB h t.ref).length

/-- One iteration of `List`'s copy loop: allocate a fresh `RouteInfo`
holding the entry's value and bind the key to the fresh pointer. -/
def copyStepB (acc : HeapB × MapB) (kv : String × Nat) : HeapB × MapB :=
  let hp := allocInfoB acc.1 (readInfoB acc.1 kv.2)
  (hp.1, upsertA acc.2 kv.1 hp.2)

/-- `List`'s copy loop over the tracker's entries. -/
def copyEntriesB (h : HeapB) (entries : MapB) : HeapB × MapB :=
  entries.foldl copyStepB (h, [])

/-- `List`: deep-copy the entries, allocate a fresh map object for the
result, and return its reference. -/
def trackerListB (h : HeapB) (t : TrackerRefB) : HeapB × Nat :=
  allocMapB (copyEntriesB h (readMapB h t.ref)).1 (copyEntriesB h (readMapB h t.ref)).2

/-- `h'` extends `h` on the info arena: old pointers keep their
objects. -/
def InfoExt (h h' : HeapB) : Prop :=
  h.infos.length ≤ h'.infos.length ∧
    ∀ p, p < h.infos.length → h'.infos[p]? = h.infos[p]?

theorem infoExt_refl (h : HeapB) : InfoExt h h := ⟨Nat.le_refl _, fun _ _ => rfl⟩

theorem infoExt_trans {h1 h2 h3 : HeapB} (a : InfoExt h1 h2) (b : InfoExt h2 h3) :
    InfoExt h1 h3 :=
  ⟨Nat.le_trans a.1 b.1, fun p hp => (b.2 p (Nat.lt_of_lt_of_le hp a.1)).trans (a.2 p hp)⟩

theorem infoExt_allocInfoB (h : HeapB) (v : RouteInfo) : InfoExt h (allocInfoB h v).1 := by
  refine ⟨by simp [allocInfoB], ?_⟩
  intro p hp
  simp [allocInfoB, List.getElem?_append_left hp]

theorem readInfoB_ext {h h' : HeapB} (he : InfoExt h h') (p : Nat)
    (hp : p < h.infos.length) : readInfoB h' p = readInfoB h p := by
  simp [readInfoB, List.get?_eq_getElem?, he.2 p hp]

theorem readInfoB_allocInfoB (h : HeapB) (v : RouteInfo) :
    readInfoB (allocInfoB h v).1 (allocInfoB h v).2 = v := by
  simp [readInfoB, allocInfoB, List.get?_eq_getElem?, List.getElem?_concat_length]

theorem allocInfoB_maps (h : HeapB) (v : RouteInfo) : (allocInfoB h v).1.maps = h.maps := rfl

theorem lookupA_mem {V : Type} (m : List (String × V)) (k : String) (v : V)
    (h : lookupA m k = some v) : (k, v) ∈ m := by
  induction m with
  | nil => cases h
  | cons kv rest ih =>
    rw [lookupA_cons] at h
    by_cases hk : kv.1 = k
    · rw [if_pos hk] at h
      have : kv = (k, v) := by
        cases kv
        simp_all
      rw [← this]
      exact List.mem_cons_self _ _
    · rw [if_neg hk] at h
      exact List.mem_cons_of_mem _ (ih h)

/-- Specification of the copy loop: the map arena is untouched, the info
arena only grows, every copied pointer is fresh (or came from the initial
accumulator), and reading the copied map through the final heap yields the
last binding of the source entries read through the original heap. -/
theorem copy_foldl_spec (hOrig : HeapB) (entries : MapB)
    (hent : ∀ kv ∈ entries, (kv : String × Nat).2 < hOrig.infos.length) :
    ∀ (h0 : HeapB) (m0 : MapB), InfoExt hOrig h0 →
    (entries.foldl copyStepB (h0, m0)).1.maps = h0.maps ∧
    InfoExt h0 (entries.foldl copyStepB (h0, m0)).1 ∧
    (∀ kv ∈ (entries.foldl copyStepB (h0, m0)).2, kv ∈ m0 ∨
      (h0.infos.length ≤ (kv : String × Nat).2 ∧
        (kv : String × Nat).2 < (entries.foldl copyStepB (h0, m0)).1.infos.length)) ∧
    (∀ k, (lookupA (entries.foldl copyStepB (h0, m0)).2 k).map
        (readInfoB (entries.foldl copyStepB (h0, m0)).1) =
      match lastBindA entries k with
      | some p => some (readInfoB hOrig p)
      | none => (lookupA m0 k).map (readInfoB (entries.foldl copyStepB (h0, m0)).1)) := by
  induction entries with
  | nil =>
    intro h0 m0 hext
    exact ⟨rfl, infoExt_refl h0, fun kv hkv => Or.inl hkv, fun k => by simp [lastBindA]⟩
  | cons kv rest ih =>
    intro h0 m0 hext
    have hkv2 : kv.2 < hOrig.infos.length := hent kv (List.mem_cons_self _ _)
    have hrest : ∀ kv' ∈ rest, (kv' : String × Nat).2 < hOrig.infos.length :=
      fun kv' h' => hent kv' (List.mem_cons_of_mem _ h')
    have hstepheap : (copyStepB (h0, m0) kv).1 = (allocInfoB h0 (readInfoB h0 kv.2)).1 := rfl
    have hstepmap : (copyStepB (h0, m0) kv).2 = upsertA m0 kv.1 h0.infos.length := rfl
    have hext0 : InfoExt h0 (copyStepB (h0, m0) kv).1 := by
      rw [hstepheap]; exact infoExt_allocInfoB h0 _
    have hextO : InfoExt hOrig (copyStepB (h0, m0) kv).1 := infoExt_trans hext hext0
    have hihspec := ih hrest (copyStepB (h0, m0) kv).1 (copyStepB (h0, m0) kv).2 hextO
    have hpair : ((copyStepB (h0, m0) kv).1, (copyStepB (h0, m0) kv).2) =
        copyStepB (h0, m0) kv := rfl
    rw [hpair] at hihspec
    have hfold : (kv :: rest).foldl copyStepB (h0, m0) =
        rest.foldl copyStepB (copyStepB (h0, m0) kv) := by
      rw [List.foldl_cons]
    rw [hfold]
    have hlen0 : (copyStepB (h0, m0) kv).1.infos.length = h0.infos.length + 1 := by
      rw [hstepheap]
      simp [allocInfoB]
    refine ⟨?_, ?_, ?_, ?_⟩
    · rw [hihspec.1, hstepheap, allocInfoB_maps]
    · exact infoExt_trans hext0 hihspec.2.1
    · intro kv' hkv'
      rcases hihspec.2.2.1 kv' hkv' with hin | hfresh
      · rw [hstepmap] at hin
        rcases upsert_entries_key m0 kv.1 h0.infos.length kv' hin with hin' | heq
        · exact Or.inl hin'
        · refine Or.inr ⟨?_, ?_⟩
          · rw [heq]
          · have h1 : (kv' : String × Nat).2 < (copyStepB (h0, m0) kv).1.infos.length := by
              rw [heq, hlen0]
              exact Nat.lt_succ_self _
            exact Nat.lt_of_lt_of_le h1 hihspec.2.1.1
      · refine Or.inr ⟨?_, hfresh.2⟩
        calc h0.infos.length ≤ (copyStepB (h0, m0) kv).1.infos.length := hext0.1
          _ ≤ kv'.2 := hfresh.1
    · intro k
      rw [hihspec.2.2.2 k]
      cases hr : lastBindA rest k with
      | some p => simp [lastBindA, hr]
      | none =>
        simp only [lastBindA, hr]
        have hq : readInfoB (rest.foldl copyStepB (copyStepB (h0, m0) kv)).1
            h0.infos.length = readInfoB hOrig kv.2 := by
          have h1 : readInfoB (copyStepB (h0, m0) kv).1 h0.infos.length =
              readInfoB h0 kv.2 := by
            rw [hstepheap]
            exact readInfoB_allocInfoB h0 _
          have h2 : readInfoB (rest.foldl copyStepB (copyStepB (h0, m0) kv)).1
              h0.infos.length = readInfoB (copyStepB (h0, m0) kv).1 h0.infos.length := by
            refine readInfoB_ext hihspec.2.1 h0.infos.length ?_
            rw [hlen0]
            exact Nat.lt_succ_self _
          have h3 : readInfoB h0 kv.2 = readInfoB hOrig kv.2 :=
            readInfoB_ext hext kv.2 hkv2
          rw [h2, h1, h3]
        by_cases hk : kv.1 = k
        · subst hk
          have hl : lookupA (copyStepB (h0, m0) kv).2 kv.1 = some h0.infos.length := by
            rw [hstepmap]
            exact lookupA_upsert_self m0 kv.1 _
          rw [hl]
          simp [hq]
        · have hl : lookupA (copyStepB (h0, m0) kv).2 k = lookupA m0 k := by
            rw [hstepmap]
            exact lookupA_upsert_ne m0 kv.1 k _ hk
          rw [hl]
          simp [hk]

theorem readMapB_writeMapB_ne (h : HeapB) (r r' : Nat) (m : MapB) (hne : r ≠ r') :
    readMapB (writeMapB h r m) r' = readMapB h r' := by
  simp [readMapB, writeMapB, List.get?_eq_getElem?, List.getElem?_set_ne hne]

theorem readMapB_allocMapB (h : HeapB) (m : MapB) :
    readMapB (allocMapB h m).1 (allocMapB h m).2 = m := by
  simp [readMapB, allocMapB, List.get?_eq_getElem?, List.getElem?_concat_length]

theorem readMapB_allocMapB_old (h : HeapB) (m : MapB) (r : Nat) (hr : r < h.maps.length) :
    readMapB (allocMapB h m).1 r = readMapB h r := by
  simp [readMapB, allocMapB, List.get?_eq_getElem?, List.getElem?_append_left hr]

theorem readInfoB_writeInfoB_ne (h : HeapB) (p q : Nat) (v : RouteInfo) (hne : p ≠ q) :
    readInfoB (writeInfoB h p v) q = readInfoB h q := by
  simp [readInfoB, writeInfoB, List.get?_eq_getElem?, List.getElem?_set_ne hne]

theorem readMapB_eq_of_maps {h h' : HeapB} (hm : h.maps = h'.maps) (r : Nat) :
    readMapB h r = readMapB h' r := by
  simp [readMapB, hm]

/-- C9: `List` returns a defensive copy, in both tracker revisions.  For
the original tracker (string values): the copy's bindings equal the
tracker's current mapping; overwriting the returned map object changes
nothing the tracker later observes through `Get`, `List` (the internal
map), or `Count`; and `Set`/`Delete` after `List` leave the returned copy
untouched.  For the revised tracker (pointer values): the copy's observed
values equal the tracker's current mapping; overwriting a returned entry
object, or the returned map object, never changes the tracker's observed
state; and `Set`/`Delete` after `List` leave the copy's observed contents
untouched. -/
theorem c9_tracker_list_defensive_copy
    (hA : HeapA) (tA : TrackerRefA)
    (hvA : tA.ref < hA.arena.length) (hnA : (keysA (readA hA tA.ref)).Nodup)
    (hB : HeapB) (tB : TrackerRefB)
    (hvB : tB.ref < hB.maps.length) (hnB : (keysA (readMapB hB tB.ref)).Nodup)
    (hptrB : ∀ kv ∈ readMapB hB tB.ref, (kv : String × Nat).2 < hB.infos.length) :
    (∀ k, lookupA (readA (trackerListA hA tA).1 (trackerListA hA tA).2) k =
      trackerGetA hA tA k) ∧
    (∀ m k, trackerGetA (writeA (trackerListA hA tA).1 (trackerListA hA tA).2 m) tA k =
      trackerGetA hA tA k) ∧
    (∀ m, trackerCountA (writeA (trackerListA hA tA).1 (trackerListA hA tA).2 m) tA =
      trackerCountA hA tA) ∧
    (∀ m, readA (writeA (trackerListA hA tA).1 (trackerListA hA tA).2 m) tA.ref =
      readA hA tA.ref) ∧
    (∀ k v, readA (trackerSetA (trackerListA hA tA).1 tA k v) (trackerListA hA tA).2 =
      readA (trackerListA hA tA).1 (trackerListA hA tA).2) ∧
    (∀ k, readA (trackerDeleteA (trackerListA hA tA).1 tA k) (trackerListA hA tA).2 =
      readA (trackerListA hA tA).1 (trackerListA hA tA).2) ∧
    (∀ k, (lookupA (readMapB (trackerListB hB tB).1 (trackerListB hB tB).2) k).map
      (readInfoB (trackerListB hB tB).1) = trackerGetB hB tB k) ∧
    (∀ k p v, lookupA (readMapB (trackerListB hB tB).1 (trackerListB hB tB).2) k = some p →
      ∀ k', trackerGetB (writeInfoB (trackerListB hB tB).1 p v) tB k' =
        trackerGetB hB tB k') ∧
    (∀ m k, trackerGetB (writeMapB (trackerListB hB tB).1 (trackerListB hB tB).2 m) tB k =
      trackerGetB hB tB k) ∧
    (∀ k0 rid addr k,
      (lookupA (readMapB (trackerSetB (trackerListB hB tB).1 tB k0 rid addr)
          (trackerListB hB tB).2) k).map
        (readInfoB (trackerSetB (trackerListB hB tB).1 tB k0 rid addr)) =
      (lookupA (readMapB (trackerListB hB tB).1 (trackerListB hB tB).2) k).map
        (readInfoB (trackerListB hB tB).1)) ∧
    (∀ k0 k,
      (lookupA (readMapB (trackerDeleteB (trackerListB hB tB).1 tB k0)
          (trackerListB hB tB).2) k).map
        (readInfoB (trackerDeleteB (trackerListB hB tB).1 tB k0)) =
      (lookupA (readMapB (trackerListB hB tB).1 (trackerListB hB tB).2) k).map
        (readInfoB (trackerListB hB tB).1)) := by
  have hArne : (trackerListA hA tA).2 ≠ tA.ref := by
    show hA.arena.length ≠ tA.ref
    omega
  have hA1 : readA (trackerListA hA tA).1 (trackerListA hA tA).2 =
      copyMapA (readA hA tA.ref) := readA_allocA hA _
  have hA2 : readA (trackerListA hA tA).1 tA.ref = readA hA tA.ref :=
    readA_allocA_old hA _ tA.ref hvA
  have hspec := copy_foldl_spec hB (readMapB hB tB.ref) hptrB hB [] (infoExt_refl hB)
  have s1 : (copyEntriesB hB (readMapB hB tB.ref)).1.maps = hB.maps := hspec.1
  have s3 : ∀ kv ∈ (copyEntriesB hB (readMapB hB tB.ref)).2,
      hB.infos.length ≤ (kv : String × Nat).2 ∧
        (kv : String × Nat).2 < (copyEntriesB hB (readMapB hB tB.ref)).1.infos.length := by
    intro kv hkv
    rcases hspec.2.2.1 kv hkv with h' | h'
    · cases h'
    · exact h'
  have s4 : ∀ k, (lookupA (copyEntriesB hB (readMapB hB tB.ref)).2 k).map
      (readInfoB (copyEntriesB hB (readMapB hB tB.ref)).1) =
      (lastBindA (readMapB hB tB.ref) k).map (readInfoB hB) := by
    intro k
    have h4 := hspec.2.2.2 k
    cases hl : lastBindA (readMapB hB tB.ref) k with
    | some p => rw [hl] at h4; simpa using h4
    | none => rw [hl] at h4; simpa using h4
  have hB1 : readMapB (trackerListB hB tB).1 (trackerListB hB tB).2 =
      (copyEntriesB hB (readMapB hB tB.ref)).2 := readMapB_allocMapB _ _
  have hvB' : tB.ref < (copyEntriesB hB (readMapB hB tB.ref)).1.maps.length := by
    rw [s1]; exact hvB
  have hB2 : readMapB (trackerListB hB tB).1 tB.ref = readMapB hB tB.ref := by
    have h1 := readMapB_allocMapB_old (copyEntriesB hB (readMapB hB tB.ref)).1
      (copyEntriesB hB (readMapB hB tB.ref)).2 tB.ref hvB'
    exact h1.trans (readMapB_eq_of_maps s1 tB.ref)
  have hExt : InfoExt hB (trackerListB hB tB).1 := hspec.2.1
  have hInfoLen : (trackerListB hB tB).1.infos.length =
      (copyEntriesB hB (readMapB hB tB.ref)).1.infos.length := rfl
  have hBrne : (trackerListB hB tB).2 ≠ tB.ref := by
    show (copyEntriesB hB (readMapB hB tB.ref)).1.maps.length ≠ tB.ref
    omega
  have hInfoPres : ∀ q, q < hB.infos.length →
      readInfoB (trackerListB hB tB).1 q = readInfoB hB q :=
    fun q hq => readInfoB_ext hExt q hq
  have hGetPres : ∀ (hX : HeapB), readMapB hX tB.ref = readMapB hB tB.ref →
      (∀ q, q < hB.infos.length → readInfoB hX q = readInfoB hB q) →
      ∀ k, trackerGetB hX tB k = trackerGetB hB tB k := by
    intro hX hmap hinfo k
    unfold trackerGetB
    rw [hmap]
    cases hl : lookupA (readMapB hB tB.ref) k with
    | none => rfl
    | some p =>
      have hp := hptrB (k, p) (lookupA_mem _ _ _ hl)
      simp [hinfo p hp]
  refine ⟨?_, ?_, ?_, ?_, ?_, ?_, ?_, ?_, ?_, ?_, ?_⟩
  · intro k
    rw [hA1, lookupA_copyMapA _ k hnA]
    rfl
  · intro m k
    unfold trackerGetA
    rw [readA_writeA_ne _ _ _ _ hArne, hA2]
  · intro m
    unfold trackerCountA
    rw [readA_writeA_ne _ _ _ _ hArne, hA2]
  · intro m
    rw [readA_writeA_ne _ _ _ _ hArne, hA2]
  · intro k v
    unfold trackerSetA
    exact readA_writeA_ne _ _ _ _ (Ne.symm hArne)
  · intro k
    unfold trackerDeleteA
    exact readA_writeA_ne _ _ _ _ (Ne.symm hArne)
  · intro k
    rw [hB1]
    have h4 : (lookupA (copyEntriesB hB (readMapB hB tB.ref)).2 k).map
        (readInfoB (trackerListB hB tB).1) =
        (lastBindA (readMapB hB tB.ref) k).map (readInfoB hB) := s4 k
    rw [h4, lastBindA_of_nodup _ k hnB]
    rfl
  · intro k p v hlk k'
    rw [hB1] at hlk
    have hpf := s3 (k, p) (lookupA_mem _ _ _ hlk)
    refine hGetPres _ ?_ ?_ k'
    · rw [show readMapB (writeInfoB (trackerListB hB tB).1 p v) tB.ref =
        readMapB (trackerListB hB tB).1 tB.ref from rfl, hB2]
    · intro q hq
      have hple := hpf.1
      have hne : p ≠ q := by omega
      rw [readInfoB_writeInfoB_ne _ _ _ _ hne]
      exact hInfoPres q hq
  · intro m k
    refine hGetPres _ ?_ ?_ k
    · rw [readMapB_writeMapB_ne _ _ _ _ hBrne, hB2]
    · intro q hq
      exact hInfoPres q hq
  · intro k0 rid addr k
    have hmaps : readMapB (trackerSetB (trackerListB hB tB).1 tB k0 rid addr)
        (trackerListB hB tB).2 =
        readMapB (trackerListB hB tB).1 (trackerListB hB tB).2 := by
      simp only [trackerSetB]
      rw [readMapB_writeMapB_ne _ _ _ _ (Ne.symm hBrne)]
      rfl
    rw [hmaps, hB1]
    cases hl : lookupA (copyEntriesB hB (readMapB hB tB.ref)).2 k with
    | none => rfl
    | some p =>
      have hpf := s3 (k, p) (lookupA_mem _ _ _ hl)
      have hplen : p < (trackerListB hB tB).1.infos.length := by
        rw [hInfoLen]; exact hpf.2
      have hext' : InfoExt (trackerListB hB tB).1
          (trackerSetB (trackerListB hB tB).1 tB k0 rid addr) :=
        infoExt_allocInfoB (trackerListB hB tB).1 ⟨rid, addr⟩
      have hrd : readInfoB (trackerSetB (trackerListB hB tB).1 tB k0 rid addr) p =
          readInfoB (trackerListB hB tB).1 p :=
        readInfoB_ext hext' p hplen
      simp [hrd]
  · intro k0 k
    have hmaps : readMapB (trackerDeleteB (trackerListB hB tB).1 tB k0)
        (trackerListB hB tB).2 =
        readMapB (trackerListB hB tB).1 (trackerListB hB tB).2 := by
      unfold trackerDeleteB
      exact readMapB_writeMapB_ne _ _ _ _ (Ne.symm hBrne)
    rw [hmaps]
    rfl

/-- A concrete one-entry tracker heap of the original model. -/
def heapWitA : HeapA := ⟨[[("default/web", "k8s-default-web")]]⟩

/-- A concrete one-entry tracker heap of the revised model. -/
def heapWitB : HeapB := ⟨[[("default/web", 0)]], [⟨"gitspace::web", "10.0.0.5:8089"⟩]⟩

/-- Witness for C9 at the concrete heaps: the returned copy carries the
entry, and overwriting the returned map object (original model) or the
returned entry object (revised model) leaves the tracker reading its
original entry. -/
theorem c9_tracker_list_defensive_copy_witness :
    lookupA (readA (trackerListA heapWitA ⟨0⟩).1 (trackerListA heapWitA ⟨0⟩).2)
        "default/web" = some "k8s-default-web" ∧
    trackerGetA (writeA (trackerListA heapWitA ⟨0⟩).1 (trackerListA heapWitA ⟨0⟩).2 [])
        ⟨0⟩ "default/web" = some "k8s-default-web" ∧
    trackerGetB (writeInfoB (trackerListB heapWitB ⟨0⟩).1 1 ⟨"x", "y"⟩) ⟨0⟩
        "default/web" = some ⟨"gitspace::web", "10.0.0.5:8089"⟩ := by
  have h := c9_tracker_list_defensive_copy heapWitA ⟨0⟩ (by decide) (by decide)
    heapWitB ⟨0⟩ (by decide) (by decide) (by decide)
  refine ⟨?_, ?_, ?_⟩
  · exact (h.1 "default/web").trans (by decide)
  · exact (h.2.1 [] "default/web").trans (by decide)
  · exact (h.2.2.2.2.2.2.2.1 "default/web" 1 ⟨"x", "y"⟩ (by decide)
      "default/web").trans (by decide)

end Caddy2Gitspace
